import Mathlib

/-!
Faythe autoscaler: the Scaler run loop, its alert state machine, the action
executor's wait group, and the OpenSourceMano cloud store

A shallow embedding of `pkg/autoscaler/scaler.go` and
`pkg/cloud/store/opensourcemano/store.go`.

* Instants (`time.Time`) are integers: nanoseconds elapsed since the zero
  `time.Time{}`, so `IsZero` is equality with `0`.
* Durations (`time.Duration`) are integers: signed nanoseconds (an int64).
* `Time.Sub` is Go's `Time.Sub`: the difference of two instants, saturated to
  the range of a Duration.
* Methods with a pointer receiver are written in state-passing style: they
  take the receiver and return its new value (with the result, if any).
  `time.Now()` is an explicit argument `now`.
* A mutex operation that cannot proceed returns `none`: nothing in these
  files releases a mutex from another goroutine, so the caller stays blocked.
-/

namespace Faythe

/-! ## Time -/

/-- An instant: nanoseconds since the zero `time.Time{}`. -/
abbrev Time := Int

/-- A span of time in nanoseconds (`time.Duration`, an int64). -/
abbrev Duration := Int

/-- Smallest Duration, `-1 << 63`. -/
def minDuration : Duration := -9223372036854775808

/-- Largest Duration, `1<<63 - 1`. -/
def maxDuration : Duration := 9223372036854775807

/-- Go `Time.IsZero`: the instant is the zero `time.Time{}`. -/
def Time.IsZero (t : Time) : Bool := t == 0

/-- Go `Time.Sub`: `t - u`, and the maximum (or minimum) Duration when the
difference does not fit a Duration. -/
def Time.Sub (t u : Time) : Duration :=
  if t - u > maxDuration then maxDuration
  else if t - u < minDuration then minDuration
  else t - u

/-! ## The alert state machine (`scaler.go`, lines 185-218) -/

/-- The fields of `model.Alert` that `scaler.go` reads and writes. -/
structure Alert where
  Active : Bool
  StartedAt : Time
  FiredAt : Time
deriving DecidableEq, Repr

/-- The `alert` struct: the shared `model.Alert` and the cached result of the
last cooldown check. -/
structure alert where
  state : Alert
  cooling : Bool
deriving DecidableEq, Repr

/-- `alert.shouldFire`: `a.state.Active && time.Now().Sub(a.state.StartedAt) >= duration`.
Returns the result and the (untouched) receiver. -/
def alert.shouldFire (a : alert) (now : Time) (duration : Duration) : Bool × alert :=
  (a.state.Active && decide (Time.Sub now a.state.StartedAt ≥ duration), a)

/-- `alert.isCoolingDown`: stores `time.Now().Sub(a.state.FiredAt) <= cooldown`
in `a.cooling` and returns it. -/
def alert.isCoolingDown (a : alert) (now : Time) (cooldown : Duration) : Bool × alert :=
  let a1 : alert := { a with cooling := decide (Time.Sub now a.state.FiredAt ≤ cooldown) }
  (a1.cooling, a1)

/-- `alert.start`: `StartedAt = time.Now()`, `Active = true`. -/
def alert.start (a : alert) (now : Time) : alert :=
  { a with state := { a.state with StartedAt := now, Active := true } }

/-- `alert.fire`: `FiredAt = firedAt` if `FiredAt.IsZero() || !a.cooling`. -/
def alert.fire (a : alert) (firedAt : Time) : alert :=
  if Time.IsZero a.state.FiredAt || !a.cooling then
    { a with state := { a.state with FiredAt := firedAt } }
  else a

/-- `alert.reset`: `StartedAt = time.Time{}`, `Active = false`, `FiredAt = time.Time{}`. -/
def alert.reset (a : alert) : alert :=
  { a with state := { a.state with StartedAt := 0, Active := false, FiredAt := 0 } }

/-- `alert.isActive`: `a.state.Active`. -/
def alert.isActive (a : alert) : Bool := a.state.Active

/-! ## Mutexes -/

/-- A `sync.RWMutex`: the number of read locks held and whether the write
lock is held. -/
structure RWMutex where
  readers : Nat
  writer : Bool
deriving DecidableEq, Repr

/-- `RLock`: takes a read lock; blocks (`none`) while the write lock is held. -/
def RWMutex.RLock (m : RWMutex) : Option RWMutex :=
  if m.writer then none else some { m with readers := m.readers + 1 }

/-- `RUnlock`: gives back one read lock. -/
def RWMutex.RUnlock (m : RWMutex) : RWMutex :=
  { m with readers := m.readers - 1 }

/-- `Lock`: takes the write lock; blocks (`none`) while the write lock or any
read lock is held. -/
def RWMutex.Lock (m : RWMutex) : Option RWMutex :=
  if m.writer || decide (0 < m.readers) then none else some { m with writer := true }

/-- `Unlock`: gives back the write lock. -/
def RWMutex.Unlock (m : RWMutex) : RWMutex :=
  { m with writer := false }

/-- A mutex nobody holds. -/
def RWMutex.free : RWMutex := { readers := 0, writer := false }

/-! ## The Scaler run loop (`scaler.go`, lines 73-119) -/

/-- The runtime state of a Scaler that one pass of the loop body reads and
writes: `s.Active` (of `model.Scaler`), `s.alert` and `s.mtx`. -/
structure Scaler where
  Active : Bool
  alert : alert
  mtx : RWMutex
deriving DecidableEq, Repr

/-- What `s.backend.QueryInstant` returned: an error, or a result set of the
given length. -/
inductive QueryResult where
  | err
  | ok (len : Nat)
deriving DecidableEq, Repr

/-- The environment of one tick: the wall-clock time of the tick, the answer of
the backend, and what `s.do()` does if it is called: `none` when `wg.Wait()`
never returns, `some ts` when it returns after the delivered actions called
`s.alert.fire` with the times `ts`, in that order. -/
structure Tick where
  now : Time
  result : QueryResult
  doFires : Option (List Time)
deriving DecidableEq, Repr

/-- What a tick did, in order. -/
inductive Event where
  | query
  | lock
  | unlock
  | dispatch
deriving DecidableEq, Repr

/-- How a pass of the loop body finished: it reached the end of the body (or a
`continue`), or the goroutine is blocked in `s.mtx.Lock()` or in `s.do()`. -/
inductive Status where
  | ended
  | blockedAtLock
  | blockedInDo
deriving DecidableEq, Repr

/-- The Scaler after a pass of the loop body, what the pass did, and how it
finished. -/
structure TickResult where
  scaler : Scaler
  trace : List Event
  status : Status
deriving DecidableEq, Repr

/-- The body of `case <-ticker.C:` in `Scaler.run` (lines 93-115), with the
parsed `duration` and `cooldown`. -/
def Scaler.tick (s : Scaler) (duration cooldown : Duration) (t : Tick) : TickResult :=
  if !s.Active then
    ⟨s, [], .ended⟩
  else
    match t.result with
    | .err => ⟨s, [.query], .ended⟩
    | .ok len =>
      match s.mtx.Lock with
      | none => ⟨s, [.query], .blockedAtLock⟩
      | some m =>
        if len == 0 then
          ⟨{ s with mtx := m, alert := s.alert.reset }, [.query, .lock], .ended⟩
        else
          let a0 := if !s.alert.isActive then s.alert.start t.now else s.alert
          let (sf, a1) := a0.shouldFire t.now duration
          if sf then
            let (cd, a2) := a1.isCoolingDown t.now cooldown
            if !cd then
              match t.doFires with
              | none => ⟨{ s with mtx := m, alert := a2 }, [.query, .lock, .dispatch], .blockedInDo⟩
              | some ts =>
                ⟨{ s with mtx := m.Unlock, alert := ts.foldl alert.fire a2 },
                  [.query, .lock, .dispatch, .unlock], .ended⟩
            else
              ⟨{ s with mtx := m.Unlock, alert := a2 }, [.query, .lock, .unlock], .ended⟩
          else
            ⟨{ s with mtx := m.Unlock, alert := a1 }, [.query, .lock, .unlock], .ended⟩

/-- The loop of `Scaler.run` over the ticks it receives: the results of the
passes in order. A pass that blocks is the last one: the goroutine never
reaches the next tick. -/
def Scaler.run (s : Scaler) (duration cooldown : Duration) : List Tick → List (Tick × TickResult)
  | [] => []
  | t :: ts =>
    let r := s.tick duration cooldown t
    match r.status with
    | .ended => (t, r) :: Scaler.run r.scaler duration cooldown ts
    | _ => [(t, r)]

/-- The times of the ticks of a run that called `s.do()`. -/
def dispatchTimes (rs : List (Tick × TickResult)) : List Time :=
  (rs.filter (fun p => decide (Event.dispatch ∈ p.2.trace))).map (fun p => p.1.now)

/-! ## The action executor (`scaler.go`, lines 122-183) -/

/-- The fields of `model.Action` that `Scaler.do` reads. -/
structure Action where
  URL : String
  Method : String
  Delay : String
  DelayType : String
  Attempts : Nat
deriving DecidableEq, Repr

/-- The part of `retry.Config` a delay function reads. -/
structure Config where
  delay : Duration
deriving DecidableEq, Repr

/-- Type `retry.DelayTypeFunc`: the delay before retry number `n`. -/
abbrev DelayTypeFunc := Nat → Config → Duration

/-- The variable `f` after the `switch a.DelayType` of lines 153-159: it is
declared without a value (nil, here `none`) and only the two cases assign it. -/
def selectDelay (FixedDelay BackOffDelay : DelayTypeFunc) (a : Action) : Option DelayTypeFunc :=
  if a.DelayType == "fixed" then some FixedDelay
  else if a.DelayType == "backoff" then some BackOffDelay
  else none

/-- The function `Scaler.do` passes to `retry.DelayType` (lines 152-161):
`return f(n, config)`. Calling a nil function value is a run-time panic, here
`none`. `FixedDelay` and `BackOffDelay` are the two functions of the retry
library. -/
def delayType (FixedDelay BackOffDelay : DelayTypeFunc) (a : Action) (n : Nat)
    (config : Config) : Option Duration :=
  match selectDelay FixedDelay BackOffDelay a with
  | none => none
  | some f => some (f n config)

/-- The terminal outcome of `retry.Do` for one action: `nil` (the request was
sent), or an error (a terminal error, or the attempts are exhausted). -/
inductive Outcome where
  | delivered
  | failed
deriving DecidableEq, Repr

/-- Where the goroutine of one action stands: started but `wg.Add(1)` not yet
run; registered and inside `retry.Do`; returned. -/
inductive Pc where
  | spawned
  | registered
  | finished
deriving DecidableEq, Repr

/-- The goroutine of one action. -/
structure Task where
  pc : Pc
  outcome : Outcome
deriving DecidableEq, Repr

/-- The state of one call of `Scaler.do`: the counter of `wg`, the goroutines,
the alert they share, and whether `wg.Wait()` has returned. -/
structure DoState where
  wg : Int
  tasks : List Task
  alert : alert
  returned : Bool
deriving DecidableEq, Repr

/-- One scheduling step: goroutine `i` runs to its next point (reading the
clock as `now`), or the caller's `wg.Wait()` looks at the counter. -/
inductive Step where
  | task (i : Nat) (now : Time)
  | wait
deriving DecidableEq, Repr

/-- The next point of one goroutine (lines 136-178) and what it adds to the
counter: `wg.Add(1)` first; then `retry.Do`, after which an error returns at
line 173, before `defer wg.Done()` of line 178 is reached, and a delivery
calls `s.alert.fire(time.Now())` and runs the deferred `wg.Done()`. -/
def Task.step (t : Task) (a : alert) (now : Time) : Task × alert × Int :=
  match t.pc with
  | .spawned => ({ t with pc := .registered }, a, 1)
  | .registered =>
    match t.outcome with
    | .failed => ({ t with pc := .finished }, a, 0)
    | .delivered => ({ t with pc := .finished }, a.fire now, -1)
  | .finished => (t, a, 0)

/-- One scheduling step of a call of `Scaler.do`. `wg.Wait()` returns when it
sees the counter at zero. -/
def DoState.step (st : DoState) : Step → DoState
  | .wait => if st.wg == 0 then { st with returned := true } else st
  | .task i now =>
    match st.tasks[i]? with
    | none => st
    | some t =>
      let r := t.step st.alert now
      { st with tasks := st.tasks.set i r.1, alert := r.2.1, wg := st.wg + r.2.2 }

/-- The state of `Scaler.do` when the loop of line 134 has started one
goroutine per action, with the terminal outcome each action will have. -/
def DoState.init (a : Faythe.alert) (outcomes : List Outcome) : DoState :=
  { wg := 0, tasks := outcomes.map (fun o => { pc := .spawned, outcome := o }),
    alert := a, returned := false }

/-- A call of `Scaler.do` under a schedule. -/
def DoState.exec (st : DoState) (sched : List Step) : DoState :=
  sched.foldl DoState.step st

/-- Every goroutine of the call has returned. -/
def DoState.allFinished (st : DoState) : Bool :=
  st.tasks.all (fun t => t.pc == .finished)

/-- What a goroutine currently holds of the counter: one unit from its
`wg.Add(1)` until its `wg.Done()`. -/
def Task.held (t : Task) : Int :=
  match t.pc, t.outcome with
  | .spawned, _ => 0
  | .registered, _ => 1
  | .finished, .failed => 1
  | .finished, .delivered => 0

/-! ## The OpenSourceMano cloud store (`store.go`) -/

/-- A `model.OpenSourceMano` record: the `Provider` that `Get` compares, and
the rest of the record. -/
structure OpenSourceMano where
  Provider : String
  rest : String
deriving DecidableEq, Repr

/-- The zero value of `model.OpenSourceMano`. -/
def OpenSourceMano.zero : OpenSourceMano := { Provider := "", rest := "" }

/-- What `Store.Get` uses from outside the file: the answer of
`s.etcdcli.DoGet(common.Path(model.DefaultCloudPrefix, key))` for each key (an
error, or the values of `r.Kvs`), `json.Unmarshal` into a cloud (`none` on
error), and the constant `model.ManoType`. -/
structure StoreEnv where
  DoGet : String → Option (List String)
  Unmarshal : String → Option OpenSourceMano
  ManoType : String

/-- The `Store`: its mutex and the `clouds` map. -/
structure Store where
  mtx : RWMutex
  clouds : String → Option OpenSourceMano

/-- `Store.Set` (lines 64-70): `s.mtx.Lock()`, `s.clouds[key] = value`, and the
deferred `s.mtx.Unlock()`; `none` when `Lock` blocks. The metric report of
line 69 does not touch the store. -/
def Store.Set (s : Store) (key : String) (value : OpenSourceMano) : Option Store :=
  match s.mtx.Lock with
  | none => none
  | some m =>
    some { mtx := m.Unlock,
           clouds := fun k => if k = key then some value else s.clouds k }

/-- What a call of `Store.Get` comes to: it returns a value and a flag, or the
goroutine is blocked on the mutex. -/
inductive GetResult where
  | returned (value : OpenSourceMano) (ok : Bool) (s : Store)
  | blocked (s : Store)

/-- `Store.Get` (lines 39-61). The deferred `s.mtx.RUnlock()` runs at every
`return`. -/
def Store.Get (env : StoreEnv) (s : Store) (key : String) : GetResult :=
  match s.mtx.RLock with
  | none => .blocked s
  | some m =>
    let s1 : Store := { s with mtx := m }
    let leave (value : OpenSourceMano) (ok : Bool) (s2 : Store) : GetResult :=
      .returned value ok { s2 with mtx := s2.mtx.RUnlock }
    match s1.clouds key with
    | some value => leave value true s1
    | none =>
      match env.DoGet key with
      | none => leave OpenSourceMano.zero false s1
      | some kvs =>
        match kvs with
        | [v] =>
          match env.Unmarshal v with
          | none => leave OpenSourceMano.zero false s1
          | some cloud =>
            if cloud.Provider == env.ManoType then
              match s1.Set key cloud with
              | none => .blocked s1
              | some s2 => leave cloud true s2
            else leave OpenSourceMano.zero false s1
        | _ => leave OpenSourceMano.zero false s1

/-- The two values a call of `Store.Get` returned, `none` if it did not
return. -/
def GetResult.result : GetResult → Option (OpenSourceMano × Bool)
  | .returned value ok _ => some (value, ok)
  | .blocked _ => none

/-- The store after (or, when blocked, during) a call of `Store.Get`. -/
def GetResult.store : GetResult → Store
  | .returned _ _ s => s
  | .blocked s => s

/-! ## Concrete values used in the examples -/

/-- One second, in nanoseconds. -/
def second : Duration := 1000000000

/-- A wall-clock instant of the year 2022: 63 800 000 000 seconds after the
zero Time. -/
def clock2022 : Time := 63800000000000000000

/-- An alert as `newScaler` makes it from a configuration without alert:
`&model.Alert{}`, all fields zero. -/
def alert.fresh : alert := { state := { Active := false, StartedAt := 0, FiredAt := 0 }, cooling := false }

/-- Tick number `i` of the first end-to-end scenario: taken `10 * i` seconds
after `clock2022`, with a non-empty result set, and a `do` whose single
delivery records the time of the tick. -/
def scenarioTick (i : Nat) : Tick :=
  { now := clock2022 + 10 * (i : Int) * second, result := .ok 1,
    doFires := some (List.replicate 1 (clock2022 + 10 * (i : Int) * second)) }

/-- The ticks at 0 s, 10 s, ..., 100 s of the first end-to-end scenario
(Interval = 10 s). -/
def scenarioTicks : List Tick := (List.range 11).map scenarioTick

/-- A Scaler as `newScaler` makes it, enabled. -/
def Scaler.fresh : Scaler := { Active := true, alert := alert.fresh, mtx := RWMutex.free }

/-! ## Lemmas on time and on `fire` -/

/-- For `u` not after `t`, `Time.Sub t u` is at most the exact difference. -/
theorem Time.Sub_le_diff (t u : Time) (h : u ≤ t) : Time.Sub t u ≤ t - u := by
  unfold Time.Sub minDuration maxDuration
  simp only [Time, Duration] at *
  split_ifs <;> omega

/-- When the exact difference fits a Duration, `Time.Sub` is that difference. -/
theorem Time.Sub_eq_diff (t u : Time) (h1 : minDuration ≤ t - u) (h2 : t - u ≤ maxDuration) :
    Time.Sub t u = t - u := by
  unfold Time.Sub
  unfold minDuration maxDuration at *
  simp only [Time, Duration] at *
  split_ifs <;> omega

/-- A call of `fire` leaves Active, StartedAt and `cooling` as they were. -/
theorem alert.fire_state (a : alert) (t : Time) :
    (a.fire t).state.Active = a.state.Active ∧ (a.fire t).state.StartedAt = a.state.StartedAt ∧
      (a.fire t).cooling = a.cooling := by
  unfold alert.fire
  split_ifs <;> simp

/-- So does any number of calls of `fire`. -/
theorem alert.foldl_fire_state (ts : List Time) (a : alert) :
    (ts.foldl alert.fire a).state.Active = a.state.Active ∧
      (ts.foldl alert.fire a).state.StartedAt = a.state.StartedAt ∧
      (ts.foldl alert.fire a).cooling = a.cooling := by
  induction ts generalizing a with
  | nil => simp
  | cons t ts ih =>
    obtain ⟨h1, h2, h3⟩ := alert.fire_state a t
    obtain ⟨k1, k2, k3⟩ := ih (a.fire t)
    simp only [List.foldl_cons]
    exact ⟨k1.trans h1, k2.trans h2, k3.trans h3⟩

/-! ## The alert operations -/

/-- C4: `alert.reset()` yields Active = false, StartedAt = zero and FiredAt =
zero whatever the alert was, and a tick that takes the lock and sees an empty
result set leaves the alert in exactly that state. -/
theorem tick_empty_resets (s : Scaler) (duration cooldown : Duration) (t : Tick)
    (hres : t.result = .ok 0) (hlock : Event.lock ∈ (s.tick duration cooldown t).trace) :
    (∀ a : alert, a.reset.state = { Active := false, StartedAt := 0, FiredAt := 0 }) ∧
      (s.tick duration cooldown t).scaler.alert = s.alert.reset ∧
      (s.tick duration cooldown t).scaler.alert.state =
        { Active := false, StartedAt := 0, FiredAt := 0 } ∧
      (s.tick duration cooldown t).status = .ended := by
  refine ⟨fun a => rfl, ?_⟩
  unfold Scaler.tick at hlock ⊢
  rw [hres] at hlock ⊢
  cases hA : s.Active <;> simp [hA] at hlock ⊢
  cases hL : s.mtx.Lock <;> simp [hL] at hlock ⊢
  simp [alert.reset]

theorem tick_empty_resets_witness :
    (Scaler.tick ⟨true, ⟨⟨true, 5, 7⟩, true⟩, RWMutex.free⟩ 30 60 ⟨9, .ok 0, none⟩).scaler.alert.state =
      { Active := false, StartedAt := 0, FiredAt := 0 } :=
  (tick_empty_resets ⟨true, ⟨⟨true, 5, 7⟩, true⟩, RWMutex.free⟩ 30 60 ⟨9, .ok 0, none⟩
    rfl (by decide)).2.2.1

/-- A tick whose trace has the lock event ran on an active Scaler, had its
query answered, and found the mutex free. -/
theorem tick_lock_mem (s : Scaler) (duration cooldown : Duration) (t : Tick)
    (hlock : Event.lock ∈ (s.tick duration cooldown t).trace) :
    s.Active = true ∧ ∃ len m, t.result = .ok len ∧ s.mtx.Lock = some m := by
  unfold Scaler.tick at hlock
  cases hA : s.Active
  · simp [hA] at hlock
  · cases hr : t.result with
    | err => simp [hA, hr] at hlock
    | ok len =>
      cases hL : s.mtx.Lock with
      | none => simp [hA, hr, hL] at hlock
      | some m => exact ⟨rfl, len, m, rfl, rfl⟩

/-- The alert after a tick that evaluates a non-empty result set has the
Active flag and StartedAt of the alert after the `isActive`/`start` step. -/
theorem tick_nonempty_alert (s : Scaler) (duration cooldown : Duration) (t : Tick) (n : Nat)
    (m : RWMutex) (hA : s.Active = true) (hres : t.result = .ok (n + 1))
    (hL : s.mtx.Lock = some m) :
    (s.tick duration cooldown t).scaler.alert.state.Active =
        (if !s.alert.isActive then s.alert.start t.now else s.alert).state.Active ∧
      (s.tick duration cooldown t).scaler.alert.state.StartedAt =
        (if !s.alert.isActive then s.alert.start t.now else s.alert).state.StartedAt := by
  unfold Scaler.tick
  simp only [hA, hres, hL, alert.shouldFire, alert.isCoolingDown]
  generalize (if !s.alert.isActive then s.alert.start t.now else s.alert) = a0
  cases hf : t.doFires <;> simp <;> split_ifs <;>
    simp [(alert.foldl_fire_state _ _).1, (alert.foldl_fire_state _ _).2.1]

/-- C5: `alert.start` sets Active = true and StartedAt = now; a tick that takes
the lock and sees a non-empty result set leaves the alert active, with
StartedAt = now if the alert was inactive (start is called) and with
StartedAt unchanged if it was already active (start is not called). -/
theorem tick_nonempty_starts (s : Scaler) (duration cooldown : Duration) (t : Tick) (n : Nat)
    (hres : t.result = .ok (n + 1)) (hlock : Event.lock ∈ (s.tick duration cooldown t).trace) :
    (∀ (a : alert) (now : Time),
        (a.start now).state.Active = true ∧ (a.start now).state.StartedAt = now) ∧
      (s.tick duration cooldown t).scaler.alert.state.Active = true ∧
      (s.tick duration cooldown t).scaler.alert.state.StartedAt =
        (if s.alert.isActive then s.alert.state.StartedAt else t.now) := by
  refine ⟨fun a now => ⟨rfl, rfl⟩, ?_⟩
  obtain ⟨hA, len, m, hr, hL⟩ := tick_lock_mem s duration cooldown t hlock
  obtain ⟨h1, h2⟩ := tick_nonempty_alert s duration cooldown t n m hA hres hL
  rw [h1, h2]
  cases hact : s.alert.isActive
  · simp [alert.start]
  · simpa [alert.isActive] using hact

theorem tick_nonempty_starts_witness :
    (Scaler.tick ⟨true, alert.fresh, RWMutex.free⟩ 30 60 ⟨9, .ok 2, none⟩).scaler.alert.state.Active
        = true ∧
      (Scaler.tick ⟨true, alert.fresh, RWMutex.free⟩ 30 60 ⟨9, .ok 2, none⟩).scaler.alert.state.StartedAt
        = 9 :=
  (tick_nonempty_starts ⟨true, alert.fresh, RWMutex.free⟩ 30 60 ⟨9, .ok 2, none⟩ 1
    rfl (by decide)).2

/-- C6: `alert.shouldFire(duration)` at time `now` is true exactly when Active
is true and the elapsed time `now.Sub(StartedAt)` is at least `duration`; it
is false when the elapsed time is below `duration`, true for an active alert
when the elapsed time equals `duration`, and it leaves the alert as it was.
When the exact difference `now - StartedAt` fits a Duration, the elapsed time
is that difference. -/
theorem shouldFire_iff (a : alert) (now : Time) (duration : Duration) :
    ((a.shouldFire now duration).1 = true ↔
        a.state.Active = true ∧ Time.Sub now a.state.StartedAt ≥ duration) ∧
      (a.shouldFire now duration).2 = a ∧
      (Time.Sub now a.state.StartedAt < duration → (a.shouldFire now duration).1 = false) ∧
      (a.state.Active = true → Time.Sub now a.state.StartedAt = duration →
        (a.shouldFire now duration).1 = true) ∧
      (minDuration ≤ now - a.state.StartedAt → now - a.state.StartedAt ≤ maxDuration →
        ((a.shouldFire now duration).1 = true ↔
          a.state.Active = true ∧ now - a.state.StartedAt ≥ duration)) := by
  have key : (a.shouldFire now duration).1 = true ↔
      a.state.Active = true ∧ Time.Sub now a.state.StartedAt ≥ duration := by
    simp [alert.shouldFire]
  refine ⟨key, rfl, ?_, ?_, ?_⟩
  · intro h
    cases hb : (a.shouldFire now duration).1
    · rfl
    · have := (key.mp hb).2
      simp only [Time, Duration] at *
      omega
  · intro hA hE
    exact key.mpr ⟨hA, le_of_eq hE.symm⟩
  · intro h1 h2
    rw [key, Time.Sub_eq_diff _ _ h1 h2]

theorem shouldFire_iff_witness :
    (alert.shouldFire ⟨⟨true, clock2022, 0⟩, false⟩ (clock2022 + 30 * second - 1) (30 * second)).1
        = false ∧
      (alert.shouldFire ⟨⟨true, clock2022, 0⟩, false⟩ (clock2022 + 30 * second) (30 * second)).1
        = true :=
  ⟨(shouldFire_iff ⟨⟨true, clock2022, 0⟩, false⟩ (clock2022 + 30 * second - 1) (30 * second)).2.2.1
      (by decide),
    (shouldFire_iff ⟨⟨true, clock2022, 0⟩, false⟩ (clock2022 + 30 * second) (30 * second)).2.2.2.1
      rfl (by decide)⟩

/-- C7, the claim as stated fails: the first cooldown check of a Scaler whose
cooldown is the largest Duration, made in 2022 on an alert that never fired,
returns true (the elapsed time saturates at the largest Duration), and the
`fire` that follows still changes FiredAt, because FiredAt is unset. The same
happens with a cooldown of 60 s for a clock that stands 30 ns after the zero
Time. -/
theorem fire_after_true_check_changes_unset_FiredAt :
    ((alert.fresh.isCoolingDown clock2022 maxDuration).1 = true ∧
        ((alert.fresh.isCoolingDown clock2022 maxDuration).2.fire clock2022).state.FiredAt
          ≠ alert.fresh.state.FiredAt) ∧
      ((alert.fresh.isCoolingDown 30 (60 * second)).1 = true ∧
        ((alert.fresh.isCoolingDown 30 (60 * second)).2.fire 30).state.FiredAt
          ≠ alert.fresh.state.FiredAt) := by
  decide

/-- C7, amended: `alert.isCoolingDown(cooldown)` at time `now` returns true
exactly when `now.Sub(FiredAt)` is at most `cooldown`, stores that value in
`cooling` and changes nothing else; a following `alert.fire(firedAt)` sets
FiredAt = firedAt when FiredAt is unset or the check returned false, and
leaves FiredAt unchanged when FiredAt is set and the check returned true;
`fire` changes no field other than FiredAt. -/
theorem isCoolingDown_then_fire (a : alert) (now firedAt : Time) (cooldown : Duration) :
    ((a.isCoolingDown now cooldown).1 = true ↔ Time.Sub now a.state.FiredAt ≤ cooldown) ∧
      (a.isCoolingDown now cooldown).2.cooling = (a.isCoolingDown now cooldown).1 ∧
      (a.isCoolingDown now cooldown).2.state = a.state ∧
      ((a.isCoolingDown now cooldown).2.fire firedAt).state.FiredAt =
        (if a.state.FiredAt = 0 ∨ (a.isCoolingDown now cooldown).1 = false then firedAt
          else a.state.FiredAt) ∧
      (∀ (b : alert) (u : Time), (b.fire u).state.Active = b.state.Active ∧
        (b.fire u).state.StartedAt = b.state.StartedAt ∧ (b.fire u).cooling = b.cooling) := by
  refine ⟨by simp [alert.isCoolingDown], rfl, rfl, ?_, fun b u => alert.fire_state b u⟩
  simp only [alert.fire, alert.isCoolingDown, Time.IsZero]
  by_cases h0 : a.state.FiredAt = 0
  · simp [h0]
  · by_cases hc : Time.Sub now a.state.FiredAt ≤ cooldown
    · simp [h0, hc]
    · simp [h0, hc]

/-- C8: a tick on a Scaler whose Active flag is false, or whose query returns
an error, leaves the whole Scaler (the alert with its four fields, and the
mutex) as it was, ends without taking the lock and without calling `do`, and
queries the backend only if the Scaler is active. -/
theorem tick_skipped (s : Scaler) (duration cooldown : Duration) (t : Tick)
    (h : s.Active = false ∨ t.result = .err) :
    (s.tick duration cooldown t).scaler = s ∧
      (s.tick duration cooldown t).scaler.alert = s.alert ∧
      Event.lock ∉ (s.tick duration cooldown t).trace ∧
      Event.dispatch ∉ (s.tick duration cooldown t).trace ∧
      (s.tick duration cooldown t).trace = (if s.Active then [Event.query] else []) ∧
      (s.tick duration cooldown t).status = .ended := by
  unfold Scaler.tick
  cases hA : s.Active
  · simp
  · rcases h with h | h
    · simp [hA] at h
    · simp [h]

theorem tick_skipped_witness :
    (Scaler.tick ⟨false, ⟨⟨true, 5, 7⟩, true⟩, RWMutex.free⟩ 30 60 ⟨9, .ok 2, some [9]⟩).trace = [] ∧
      (Scaler.tick ⟨true, ⟨⟨true, 5, 7⟩, true⟩, RWMutex.free⟩ 30 60 ⟨9, .err, some [9]⟩).scaler.alert
        = ⟨⟨true, 5, 7⟩, true⟩ :=
  ⟨(tick_skipped ⟨false, ⟨⟨true, 5, 7⟩, true⟩, RWMutex.free⟩ 30 60 ⟨9, .ok 2, some [9]⟩
      (Or.inl rfl)).2.2.2.2.1,
    (tick_skipped ⟨true, ⟨⟨true, 5, 7⟩, true⟩, RWMutex.free⟩ 30 60 ⟨9, .err, some [9]⟩
      (Or.inr rfl)).2.1⟩

/-! ## The evaluation lock and the spacing of dispatches -/

/-- A mutex that `Lock` took was free: `Unlock` gives it back as it was, and
a second `Lock` in between blocks. -/
theorem RWMutex.Lock_some (m0 m : RWMutex) (h : m0.Lock = some m) :
    m.Unlock = m0 ∧ m.Lock = none := by
  obtain ⟨r, w⟩ := m0
  unfold RWMutex.Lock at h
  cases w <;> simp at h
  obtain ⟨hr, hm⟩ := h
  subst hm
  subst hr
  simp [RWMutex.Unlock, RWMutex.Lock]

/-- After a cooldown check that returned false, one or more calls of
`fire(u)` leave FiredAt = `u`. -/
theorem alert.foldl_fire_replicate (k : Nat) (u : Time) (a : alert) (h : a.cooling = false) :
    ((List.replicate (k + 1) u).foldl alert.fire a).state.FiredAt = u := by
  induction k generalizing a with
  | zero => simp [alert.fire, h]
  | succ k ih =>
    rw [List.replicate_succ, List.foldl_cons]
    exact ih (a.fire u) ((alert.fire_state a u).2.2.trans h)

/-- The three ways a tick can come out when every call of `do` returns after
its deliveries recorded the time of the tick: no dispatch, and FiredAt and the
mutex as before; no dispatch, and the mutex left (or found) held; a dispatch,
made more than `cooldown` (by `Time.Sub`) after the previous FiredAt, which
records the time of the tick and gives the mutex back. -/
theorem tick_cases (s : Scaler) (duration cooldown : Duration) (t : Tick)
    (hfire : ∃ k, t.doFires = some (List.replicate (k + 1) t.now)) :
    (Event.dispatch ∉ (s.tick duration cooldown t).trace ∧
        (s.tick duration cooldown t).status = .ended ∧
        (s.tick duration cooldown t).scaler.alert.state.FiredAt = s.alert.state.FiredAt ∧
        (s.tick duration cooldown t).scaler.mtx = s.mtx) ∨
      (Event.dispatch ∉ (s.tick duration cooldown t).trace ∧
        (s.tick duration cooldown t).scaler.mtx.Lock = none) ∨
      (Event.dispatch ∈ (s.tick duration cooldown t).trace ∧
        (s.tick duration cooldown t).status = .ended ∧
        (s.tick duration cooldown t).scaler.alert.state.FiredAt = t.now ∧
        Time.Sub t.now s.alert.state.FiredAt > cooldown ∧
        (s.tick duration cooldown t).scaler.mtx = s.mtx) := by
  obtain ⟨k, hk⟩ := hfire
  unfold Scaler.tick
  cases hA : s.Active
  · left; simp
  · cases hr : t.result with
    | err => left; simp
    | ok len =>
      cases hL : s.mtx.Lock with
      | none => right; left; simp [hL]
      | some m =>
        obtain ⟨hm1, hm2⟩ := RWMutex.Lock_some s.mtx m hL
        cases len with
        | zero => right; left; simp [hm2]
        | succ n =>
          have hF : (if !s.alert.isActive then s.alert.start t.now else s.alert).state.FiredAt
              = s.alert.state.FiredAt := by
            split_ifs <;> simp [alert.start]
          simp only [alert.shouldFire, alert.isCoolingDown, hk]
          generalize (if !s.alert.isActive then s.alert.start t.now else s.alert) = a0 at hF ⊢
          simp only [hF]
          by_cases h1 : (a0.state.Active && decide (Time.Sub t.now a0.state.StartedAt ≥ duration)) = true
          · by_cases h2 : Time.Sub t.now s.alert.state.FiredAt ≤ cooldown
            · left
              simp [h1, h2, hm1, hF]
            · right; right
              simp [h1, h2, hm1]
              exact ⟨alert.foldl_fire_replicate k t.now _ rfl, by simpa using h2⟩
          · left
            simp [h1, hm1, hF]

/-- The dispatch times of a run, one pass at a time. -/
theorem dispatchTimes_cons (t : Tick) (r : TickResult) (rs : List (Tick × TickResult)) :
    dispatchTimes ((t, r) :: rs) =
      if Event.dispatch ∈ r.trace then t.now :: dispatchTimes rs else dispatchTimes rs := by
  unfold dispatchTimes
  by_cases h : Event.dispatch ∈ r.trace <;> simp [List.filter_cons, h]

/-- A tick on a Scaler whose mutex is held does not call `do`, and if it ends
(it was skipped) the Scaler is as before. -/
theorem tick_of_held (s : Scaler) (duration cooldown : Duration) (t : Tick)
    (hL : s.mtx.Lock = none) :
    Event.dispatch ∉ (s.tick duration cooldown t).trace ∧
      (s.tick duration cooldown t).scaler = s := by
  unfold Scaler.tick
  cases hA : s.Active
  · simp
  · cases hr : t.result <;> simp [hL]

/-- Once the mutex is held at the start of a tick, the run never calls `do`
again. -/
theorem run_of_held (s : Scaler) (duration cooldown : Duration) (ticks : List Tick)
    (hL : s.mtx.Lock = none) : dispatchTimes (s.run duration cooldown ticks) = [] := by
  induction ticks with
  | nil => simp [Scaler.run, dispatchTimes]
  | cons t ts ih =>
    obtain ⟨h1, h2⟩ := tick_of_held s duration cooldown t hL
    unfold Scaler.run
    cases hs : (s.tick duration cooldown t).status <;>
      simp only [hs, dispatchTimes_cons, h1, if_false]
    · rw [h2]; exact ih
    · simp [dispatchTimes]
    · simp [dispatchTimes]

/-- The first dispatch of a run that starts with FiredAt = `fa`, at or after
`fa`, comes more than `cooldown` after `fa`. -/
theorem run_first_dispatch (duration cooldown : Duration) (fa : Time) (ticks : List Tick)
    (s : Scaler) (hF : s.alert.state.FiredAt = fa) (hge : ∀ t ∈ ticks, fa ≤ t.now)
    (hfire : ∀ t ∈ ticks, ∃ k, t.doFires = some (List.replicate (k + 1) t.now)) :
    ∀ x ∈ (dispatchTimes (s.run duration cooldown ticks)).head?, x - fa > cooldown := by
  induction ticks generalizing s with
  | nil => simp [Scaler.run, dispatchTimes]
  | cons t ts ih =>
    have hge1 : ∀ u ∈ ts, fa ≤ u.now := fun u hu => hge u (List.mem_cons_of_mem _ hu)
    have hfire1 : ∀ u ∈ ts, ∃ k, u.doFires = some (List.replicate (k + 1) u.now) :=
      fun u hu => hfire u (List.mem_cons_of_mem _ hu)
    unfold Scaler.run
    rcases tick_cases s duration cooldown t (hfire t (List.mem_cons_self _ _)) with
      ⟨hd, hs, hfa, _⟩ | ⟨hd, hl⟩ | ⟨hd, hs, _, hsub, _⟩
    · simp only [hs, dispatchTimes_cons, hd, if_false]
      exact ih _ (hfa.trans hF) hge1 hfire1
    · cases hs : (s.tick duration cooldown t).status <;>
        simp only [hs, dispatchTimes_cons, hd, if_false]
      · rw [run_of_held _ duration cooldown ts hl]; simp
      · simp [dispatchTimes]
      · simp [dispatchTimes]
    · simp only [hs, dispatchTimes_cons, hd, if_true]
      intro x hx
      simp only [List.head?_cons, Option.mem_def, Option.some.injEq] at hx
      subst hx
      have h1 := Time.Sub_le_diff t.now s.alert.state.FiredAt
        (by rw [hF]; exact hge t (List.mem_cons_self _ _))
      rw [hF] at h1 hsub
      simp only [Time, Duration] at *
      omega

/-- C3: over every sequence of ticks with non-decreasing times, in which each
call of `do` returns after its deliveries recorded the time of the tick with
`fire`, any two successive dispatches of `Scaler.run` are more than Cooldown
apart. -/
theorem dispatch_spacing (s : Scaler) (duration cooldown : Duration) (ticks : List Tick)
    (hmono : (ticks.map Tick.now).Pairwise (fun t1 t2 => t1 ≤ t2))
    (hfire : ∀ t ∈ ticks, ∃ k, t.doFires = some (List.replicate (k + 1) t.now)) :
    (dispatchTimes (s.run duration cooldown ticks)).Chain' (fun t1 t2 => t2 - t1 > cooldown) := by
  induction ticks generalizing s with
  | nil => simp [Scaler.run, dispatchTimes]
  | cons t ts ih =>
    rw [List.map_cons, List.pairwise_cons] at hmono
    obtain ⟨hhead, htail⟩ := hmono
    have hfire1 : ∀ u ∈ ts, ∃ k, u.doFires = some (List.replicate (k + 1) u.now) :=
      fun u hu => hfire u (List.mem_cons_of_mem _ hu)
    unfold Scaler.run
    rcases tick_cases s duration cooldown t (hfire t (List.mem_cons_self _ _)) with
      ⟨hd, hs, _, _⟩ | ⟨hd, hl⟩ | ⟨hd, hs, hfa, _, _⟩
    · simp only [hs, dispatchTimes_cons, hd, if_false]
      exact ih _ htail hfire1
    · cases hs : (s.tick duration cooldown t).status <;>
        simp only [hs, dispatchTimes_cons, hd, if_false]
      · rw [run_of_held _ duration cooldown ts hl]; simp
      · simp [dispatchTimes]
      · simp [dispatchTimes]
    · simp only [hs, dispatchTimes_cons, hd, if_true]
      rw [List.chain'_cons']
      refine ⟨?_, ih _ htail hfire1⟩
      exact run_first_dispatch duration cooldown t.now ts _ hfa
        (fun u hu => hhead u.now (List.mem_map_of_mem _ hu)) hfire1

theorem dispatch_spacing_witness :
    dispatchTimes (Scaler.fresh.run (30 * second) (60 * second) scenarioTicks) =
        [clock2022 + 30 * second, clock2022 + 100 * second] ∧
      (dispatchTimes (Scaler.fresh.run (30 * second) (60 * second) scenarioTicks)).Chain'
        (fun t1 t2 => t2 - t1 > 60 * second) :=
  ⟨by decide,
    dispatch_spacing Scaler.fresh (30 * second) (60 * second) scenarioTicks (by decide)
      (by
        intro t ht
        simp only [scenarioTicks, List.mem_map] at ht
        obtain ⟨i, _, rfl⟩ := ht
        exact ⟨0, rfl⟩)⟩

/-- C1 fails on the code: a tick of an active Scaler that takes the free lock
and sees an empty result set ends at the `continue` of line 107 with the lock
still held and no unlock, and the next tick whose query succeeds blocks in
`s.mtx.Lock()`. On the other path, a non-empty result set, the tick gives the
lock back whenever it ends. -/
theorem tick_empty_keeps_lock (a : alert) (duration cooldown : Duration) (now1 now2 : Time)
    (f1 f2 : Option (List Time)) (n : Nat) :
    (Scaler.tick ⟨true, a, RWMutex.free⟩ duration cooldown ⟨now1, .ok 0, f1⟩).status = .ended ∧
      (Scaler.tick ⟨true, a, RWMutex.free⟩ duration cooldown ⟨now1, .ok 0, f1⟩).trace
        = [.query, .lock] ∧
      (Scaler.tick ⟨true, a, RWMutex.free⟩ duration cooldown ⟨now1, .ok 0, f1⟩).scaler.mtx
        = { readers := 0, writer := true } ∧
      (Scaler.tick
          (Scaler.tick ⟨true, a, RWMutex.free⟩ duration cooldown ⟨now1, .ok 0, f1⟩).scaler
          duration cooldown ⟨now2, .ok n, f2⟩).status = .blockedAtLock ∧
      ((Scaler.tick ⟨true, a, RWMutex.free⟩ duration cooldown ⟨now1, .ok (n + 1), f1⟩).status
          = .blockedInDo ∨
        (Scaler.tick ⟨true, a, RWMutex.free⟩ duration cooldown ⟨now1, .ok (n + 1), f1⟩).scaler.mtx
          = RWMutex.free) := by
  refine ⟨rfl, rfl, rfl, rfl, ?_⟩
  unfold Scaler.tick
  simp only [RWMutex.free, RWMutex.Lock, RWMutex.Unlock, alert.shouldFire, alert.isCoolingDown]
  cases f1 <;> simp <;> split_ifs <;> simp

/-! ## The wait group of `Scaler.do` -/

/-- No goroutine holds a negative share of the counter. -/
theorem Task.held_nonneg (t : Task) : 0 ≤ t.held := by
  unfold Task.held
  cases t.pc <;> cases t.outcome <;> simp

/-- What a step adds to the counter is what the goroutine holds more. -/
theorem Task.step_held (t : Task) (a : alert) (now : Time) :
    (t.step a now).1.held = t.held + (t.step a now).2.2 := by
  obtain ⟨pc, o⟩ := t
  cases pc <;> cases o <;> simp [Task.step, Task.held]

/-- A step keeps the outcome of the action, and a registered goroutine stays
registered. -/
theorem Task.step_outcome (t : Task) (a : alert) (now : Time) :
    (t.step a now).1.outcome = t.outcome ∧ (t.pc ≠ .spawned → (t.step a now).1.pc ≠ .spawned) := by
  obtain ⟨pc, o⟩ := t
  cases pc <;> cases o <;> simp [Task.step]

/-- The total held after one goroutine of the list is replaced. -/
theorem heldSum_set (l : List Task) (i : Nat) (t u : Task) (h : l[i]? = some t) :
    ((l.set i u).map Task.held).sum = (l.map Task.held).sum - t.held + u.held := by
  induction l generalizing i with
  | nil => simp at h
  | cons x xs ih =>
    cases i with
    | zero =>
      simp only [List.getElem?_cons_zero, Option.some.injEq] at h
      subst h
      simp only [List.set_cons_zero, List.map_cons, List.sum_cons]
      omega
    | succ j =>
      simp only [List.getElem?_cons_succ] at h
      simp only [List.set_cons_succ, List.map_cons, List.sum_cons, ih j h]
      omega

/-- The total held is at least what any one goroutine holds. -/
theorem heldSum_ge (l : List Task) (i : Nat) (t : Task) (h : l[i]? = some t) :
    t.held ≤ (l.map Task.held).sum := by
  induction l generalizing i with
  | nil => simp at h
  | cons x xs ih =>
    have hnn : 0 ≤ (xs.map Task.held).sum :=
      List.sum_nonneg (by
        intro y hy
        obtain ⟨z, _, rfl⟩ := List.mem_map.mp hy
        exact Task.held_nonneg z)
    cases i with
    | zero =>
      simp only [List.getElem?_cons_zero, Option.some.injEq] at h
      subst h
      simp only [List.map_cons, List.sum_cons]
      omega
    | succ j =>
      simp only [List.getElem?_cons_succ] at h
      have := ih j h
      have := Task.held_nonneg x
      simp only [List.map_cons, List.sum_cons]
      omega

/-- The counter of the wait group is, at every point of every schedule, the
number of goroutines that ran `wg.Add(1)` and have not run `wg.Done()`: those
inside `retry.Do`, and those that returned on an error. -/
theorem DoState.step_wg (st : DoState) (e : Step) (h : st.wg = (st.tasks.map Task.held).sum) :
    (st.step e).wg = ((st.step e).tasks.map Task.held).sum := by
  cases e with
  | wait => simp only [DoState.step]; split_ifs <;> simpa using h
  | task i now =>
    simp only [DoState.step]
    cases hi : st.tasks[i]? with
    | none => simpa using h
    | some t =>
      simp only [heldSum_set st.tasks i t _ hi, Task.step_held, h]
      omega

/-- A goroutine that registered and whose action fails keeps the call from
returning: as long as `wg.Wait()` has not returned, it never will. -/
theorem DoState.exec_stuck (sched : List Step) (st : DoState) (i : Nat) (t : Task)
    (hwg : st.wg = (st.tasks.map Task.held).sum) (hret : st.returned = false)
    (hi : st.tasks[i]? = some t) (ho : t.outcome = .failed) (hpc : t.pc ≠ .spawned) :
    (st.exec sched).returned = false ∧ 1 ≤ (st.exec sched).wg := by
  have hheld : ∀ u : Task, u.outcome = .failed → u.pc ≠ .spawned → u.held = 1 := by
    intro u h1 h2
    obtain ⟨pc, o⟩ := u
    cases pc <;> cases o <;> simp_all [Task.held]
  induction sched generalizing st t with
  | nil =>
    have := heldSum_ge st.tasks i t hi
    rw [hheld t ho hpc] at this
    exact ⟨hret, by simpa [DoState.exec, hwg] using this⟩
  | cons e es ih =>
    have hge := heldSum_ge st.tasks i t hi
    rw [hheld t ho hpc, ← hwg] at hge
    have hwg1 := DoState.step_wg st e hwg
    simp only [DoState.exec, List.foldl_cons] at ih ⊢
    cases e with
    | wait =>
      have hne : (st.wg == 0) = false := by
        simp only [beq_eq_false_iff_ne, ne_eq]
        omega
      have hst : st.step .wait = st := by simp [DoState.step, hne]
      rw [hst]
      exact ih st t hwg hret hi ho hpc
    | task j now =>
      cases hj : st.tasks[j]? with
      | none =>
        have hst : st.step (.task j now) = st := by simp [DoState.step, hj]
        rw [hst]
        exact ih st t hwg hret hi ho hpc
      | some u =>
        have hret1 : (st.step (.task j now)).returned = false := by
          simp [DoState.step, hj, hret]
        have htasks : (st.step (.task j now)).tasks = st.tasks.set j (u.step st.alert now).1 := by
          simp [DoState.step, hj]
        by_cases hji : j = i
        · subst hji
          rw [hi] at hj
          cases hj
          obtain ⟨k1, k2⟩ := Task.step_outcome t st.alert now
          have hlt : j < st.tasks.length := by
            by_contra hcon
            rw [List.getElem?_eq_none (by omega)] at hi
            cases hi
          refine ih _ (t.step st.alert now).1 hwg1 hret1 ?_ (k1.trans ho) (k2 hpc)
          rw [htasks, List.getElem?_set_self hlt]
        · refine ih _ t hwg1 hret1 ?_ ho hpc
          rw [htasks, List.getElem?_set_ne hji]
          exact hi

/-- At the start the counter is zero and no goroutine holds anything. -/
theorem DoState.init_wg (a : Faythe.alert) (outcomes : List Outcome) :
    (DoState.init a outcomes).wg = ((DoState.init a outcomes).tasks.map Task.held).sum := by
  induction outcomes with
  | nil => simp [DoState.init]
  | cons o os ih => simpa [DoState.init, Task.held] using ih

/-- C2 fails on the code: whatever the other actions are and whatever the
schedule is, once the goroutine of an action that fails has run `wg.Add(1)`,
`wg.Wait()` never returns and the counter stays at 1 or more, because the
error path returns before `defer wg.Done()` is reached. For a single failing
action, the counter is 1 when the action is terminal; for a single delivered
action it is back to 0 and `wg.Wait()` returns. And when `wg.Wait()` runs
before any goroutine has registered, `do` returns at once, with no action
terminal. -/
theorem do_blocked_by_failed_action (a : alert) (pre post : List Outcome) (now : Time)
    (sched : List Step) :
    (((DoState.init a (pre ++ .failed :: post)).exec (.task pre.length now :: sched)).returned
          = false ∧
        1 ≤ ((DoState.init a (pre ++ .failed :: post)).exec (.task pre.length now :: sched)).wg) ∧
      (((DoState.init a [.failed]).exec [.task 0 now, .task 0 now]).allFinished = true ∧
        ((DoState.init a [.failed]).exec [.task 0 now, .task 0 now]).wg = 1) ∧
      (((DoState.init a [.delivered]).exec [.task 0 now, .task 0 now, .wait]).returned = true ∧
        ((DoState.init a [.delivered]).exec [.task 0 now, .task 0 now, .wait]).wg = 0) ∧
      (((DoState.init a (pre ++ .failed :: post)).exec [.wait]).returned = true ∧
        ((DoState.init a (pre ++ .failed :: post)).exec [.wait]).allFinished = false) := by
  refine ⟨?_, ⟨rfl, rfl⟩, ⟨rfl, rfl⟩, ⟨rfl, ?_⟩⟩
  · have h0 := DoState.init_wg a (pre ++ .failed :: post)
    have hi : (DoState.init a (pre ++ .failed :: post)).tasks[pre.length]?
        = some { pc := .spawned, outcome := .failed } := by
      simp only [DoState.init, List.map_append, List.map_cons]
      rw [List.getElem?_append_right (by simp)]
      simp
    have h1 := DoState.step_wg _ (.task pre.length now) h0
    have hlt : pre.length < (DoState.init a (pre ++ .failed :: post)).tasks.length := by
      simp [DoState.init]
    have hstep : ((DoState.init a (pre ++ .failed :: post)).step (.task pre.length now)).tasks
        = (DoState.init a (pre ++ .failed :: post)).tasks.set pre.length
            { pc := .registered, outcome := .failed } := by
      simp only [DoState.step, hi]
      rfl
    have hret : ((DoState.init a (pre ++ .failed :: post)).step (.task pre.length now)).returned
        = false := by
      simp only [DoState.step, hi]
      rfl
    have hi1 : ((DoState.init a (pre ++ .failed :: post)).step (.task pre.length now)).tasks[pre.length]?
        = some { pc := .registered, outcome := .failed } := by
      rw [hstep, List.getElem?_set_self hlt]
    exact DoState.exec_stuck sched _ pre.length _ h1 hret hi1 rfl (by simp)
  · simp [DoState.exec, DoState.step, DoState.init, DoState.allFinished]

/-! ## The delay function of the retry policy -/

/-- C9 fails on the code: the function passed to `retry.DelayType` returns
the fixed delay for "fixed" and the back-off delay for "backoff", and for
every other DelayType it calls the nil function `f`; so it does for the empty
string, for every retry number. -/
theorem delayType_other_is_nil_call (FixedDelay BackOffDelay : DelayTypeFunc) (a : Action)
    (URL Method Delay : String) (Attempts n : Nat) (config : Config) :
    delayType FixedDelay BackOffDelay a n config =
        (if a.DelayType = "fixed" then some (FixedDelay n config)
          else if a.DelayType = "backoff" then some (BackOffDelay n config)
          else none) ∧
      delayType FixedDelay BackOffDelay ⟨URL, Method, Delay, "fixed", Attempts⟩ n config
        = some (FixedDelay n config) ∧
      delayType FixedDelay BackOffDelay ⟨URL, Method, Delay, "backoff", Attempts⟩ n config
        = some (BackOffDelay n config) ∧
      delayType FixedDelay BackOffDelay ⟨URL, Method, Delay, "", Attempts⟩ n config = none := by
  refine ⟨?_, ?_, ?_, ?_⟩
  · unfold delayType selectDelay
    by_cases h1 : a.DelayType = "fixed"
    · simp [h1]
    · by_cases h2 : a.DelayType = "backoff"
      · simp [h2]
      · simp [h1, h2]
  · simp [delayType, selectDelay]
  · simp [delayType, selectDelay]
  · simp [delayType, selectDelay]

/-! ## `Store.Get` -/

/-- After `RLock`, `Lock` blocks: a read lock is held. -/
theorem RWMutex.Lock_after_RLock (m m1 : RWMutex) (h : m.RLock = some m1) : m1.Lock = none := by
  unfold RWMutex.RLock at h
  split_ifs at h
  cases h
  simp [RWMutex.Lock]

/-- Inside `Get`, `Set` never completes: whenever `Get` returns a cloud with
`true`, the cloud was in the map already. -/
theorem Store.Get_true_only_cached (env : StoreEnv) (s : Store) (key : String)
    (value : OpenSourceMano) (h : (s.Get env key).result = some (value, true)) :
    s.clouds key = some value := by
  unfold Store.Get at h
  cases hR : s.mtx.RLock with
  | none => simp [hR, GetResult.result] at h
  | some m =>
    have hset : ∀ c, Store.Set { s with mtx := m } key c = none := by
      intro c
      simp [Store.Set, RWMutex.Lock_after_RLock s.mtx m hR]
    simp only [hR] at h
    cases hc : s.clouds key with
    | some v => simpa [hc, GetResult.result] using h
    | none =>
      simp only [hc, hset] at h
      cases hd : env.DoGet key with
      | none => simp [hd, GetResult.result] at h
      | some kvs =>
        match kvs with
        | [] => simp [hd, GetResult.result] at h
        | _ :: _ :: _ => simp [hd, GetResult.result] at h
        | [v] =>
          cases hu : env.Unmarshal v with
          | none => simp [hd, hu, GetResult.result] at h
          | some cloud =>
            by_cases hp : (cloud.Provider == env.ManoType) = true
            · simp [hd, hu, hp, GetResult.result] at h
            · simp [hd, hu, hp, GetResult.result] at h

/-- With no writer on the mutex, the key absent from the map, and an etcd
answer of exactly one record that decodes to a cloud whose Provider is
ManoType, `Get` does not return. -/
theorem Store.Get_blocked_of_mano (env : StoreEnv) (s : Store) (key v : String)
    (cloud : OpenSourceMano) (hw : s.mtx.writer = false) (hc : s.clouds key = none)
    (hd : env.DoGet key = some [v]) (hu : env.Unmarshal v = some cloud)
    (hp : cloud.Provider = env.ManoType) : (s.Get env key).result = none := by
  simp [Store.Get, Store.Set, RWMutex.RLock, RWMutex.Lock, GetResult.result, hw, hc, hd, hu, hp]

/-- No call of `Get` changes the map. -/
theorem Store.Get_clouds (env : StoreEnv) (s : Store) (key : String) :
    (s.Get env key).store.clouds = s.clouds := by
  unfold Store.Get
  cases hR : s.mtx.RLock with
  | none => simp [GetResult.store]
  | some m =>
    have hset : ∀ c, Store.Set { s with mtx := m } key c = none := by
      intro c
      simp [Store.Set, RWMutex.Lock_after_RLock s.mtx m hR]
    simp only [hset]
    cases hc : s.clouds key with
    | some v => simp [GetResult.store]
    | none =>
      cases hd : env.DoGet key with
      | none => simp [GetResult.store]
      | some kvs =>
        match kvs with
        | [] => simp [GetResult.store]
        | _ :: _ :: _ => simp [GetResult.store]
        | [v] =>
          cases hu : env.Unmarshal v with
          | none => simp [hu, GetResult.store]
          | some cloud =>
            by_cases hp : (cloud.Provider == env.ManoType) = true
            · simp [hu, hp, GetResult.store]
            · simp [hu, hp, GetResult.store]

/-- C10 fails on the code: with the key absent from the map, no writer on the
mutex, and an etcd answer of exactly one record that decodes to a cloud whose
Provider is ManoType, `Get` does not return and the map stays without the
key: `Set` blocks in `s.mtx.Lock()` while `Get` holds the read lock. The other
two cases are as claimed: a key in the map is returned with `true`, and an
etcd error returns the zero value with `false`, both with map and mutex as
before. -/
theorem Get_blocks_in_Set (key v mano rest : String) (c : String → Option OpenSourceMano)
    (cached : OpenSourceMano) (readers : Nat) :
    ((Store.Get ⟨fun _ => some [v], fun _ => some ⟨mano, rest⟩, mano⟩
          ⟨⟨readers, false⟩, fun k => if k = key then none else c k⟩ key).result = none ∧
        (Store.Get ⟨fun _ => some [v], fun _ => some ⟨mano, rest⟩, mano⟩
          ⟨⟨readers, false⟩, fun k => if k = key then none else c k⟩ key).store.clouds key
            = none) ∧
      ((Store.Get ⟨fun _ => some [v], fun _ => some ⟨mano, rest⟩, mano⟩
          ⟨⟨readers, false⟩, fun k => if k = key then some cached else c k⟩ key).result
            = some (cached, true) ∧
        (Store.Get ⟨fun _ => some [v], fun _ => some ⟨mano, rest⟩, mano⟩
          ⟨⟨readers, false⟩, fun k => if k = key then some cached else c k⟩ key).store.clouds
            = (fun k => if k = key then some cached else c k) ∧
        (Store.Get ⟨fun _ => some [v], fun _ => some ⟨mano, rest⟩, mano⟩
          ⟨⟨readers, false⟩, fun k => if k = key then some cached else c k⟩ key).store.mtx
            = ⟨readers, false⟩) ∧
      ((Store.Get ⟨fun _ => none, fun _ => some ⟨mano, rest⟩, mano⟩
          ⟨⟨readers, false⟩, fun k => if k = key then none else c k⟩ key).result
            = some (OpenSourceMano.zero, false) ∧
        (Store.Get ⟨fun _ => none, fun _ => some ⟨mano, rest⟩, mano⟩
          ⟨⟨readers, false⟩, fun k => if k = key then none else c k⟩ key).store.clouds
            = (fun k => if k = key then none else c k) ∧
        (Store.Get ⟨fun _ => none, fun _ => some ⟨mano, rest⟩, mano⟩
          ⟨⟨readers, false⟩, fun k => if k = key then none else c k⟩ key).store.mtx
            = ⟨readers, false⟩) := by
  refine ⟨⟨?_, ?_⟩, ⟨?_, ?_, ?_⟩, ⟨?_, ?_, ?_⟩⟩ <;>
    simp [Store.Get, Store.Set, RWMutex.RLock, RWMutex.RUnlock, RWMutex.Lock, GetResult.result,
      GetResult.store]

end Faythe
